import Mathlib

/-!
Verification of the FormBuilder conditional-visibility and validation engine.

The definitions below are a shallow embedding of the TypeScript source:
`formTypes.ts` (the data model), `getVisibleFieldIds` (duplicated verbatim in
FormPreview and SavedForms), `validateFormResponse.ts` (the client-side
validator, also inlined as `validate` in FormPreview), and the server-side
`validateResponse` (two identical copies in the server source).

JavaScript conventions are made explicit: absent object properties are
`none`; truthiness of strings (`""` falsy), numbers (`0` falsy) and arrays
(always truthy) is modelled by dedicated helpers; `Array.findIndex` returns
`-1` on failure.
-/

namespace FormBuilder

/-- Validation rules attached to a field or a table column
(`validation?: \x7brequired?, minLength?, maxLength?\x7d` in `formTypes.ts`);
`none` models an absent property. -/
structure Validation where
  required : Option Bool
  minLength : Option Nat
  maxLength : Option Nat
  deriving Repr, DecidableEq

/-- A table column's type tag (`"text" | "dropdown"`). -/
inductive ColType
  | text
  | dropdown
  deriving Repr, DecidableEq

/-- `TableColumn` of `formTypes.ts`: `options` is only meaningful for
dropdown columns but, as in the source, may be present on any column. -/
structure TableColumn where
  id : String
  type : ColType
  label : String
  options : Option (List String)
  validation : Option Validation
  deriving Repr, DecidableEq

/-- A table's row mode (`"static" | "dynamic"`). -/
inductive TableMode
  | static
  | dynamic
  deriving Repr, DecidableEq

/-- `FormField` of `formTypes.ts`: the union of text, dropdown and table
fields. A dropdown's `condition` is the branching map, an association list
in property-insertion order; `some []` models a defined-but-empty JS object
`\x7b\x7d` (which is truthy), `none` an absent property. -/
inductive FormField
  | text (id label : String) (validation : Option Validation)
  | dropdown (id label : String) (options : List String) (validation : Option Validation)
      (condition : Option (List (String × String)))
  | table (id label : String) (columns : List TableColumn) (mode : TableMode)
      (rowLabels : Option (List String))
  deriving Repr, DecidableEq

/-- `field.id`. -/
def FormField.id : FormField → String
  | .text i _ _ => i
  | .dropdown i _ _ _ _ => i
  | .table i _ _ _ _ => i

/-- `field.label`. -/
def FormField.label : FormField → String
  | .text _ l _ => l
  | .dropdown _ l _ _ _ => l
  | .table _ l _ _ _ => l

/-- `FormSchema` of `formTypes.ts`. -/
structure FormSchema where
  id : Option String
  title : String
  fields : List FormField
  deriving Repr, DecidableEq

/-- A response value: a string (text/dropdown answer) or an array of row
objects (table answer), each row mapping column id to cell string. -/
inductive Value
  | str (s : String)
  | rows (rs : List (List (String × String)))
  deriving Repr, DecidableEq

/-- The response-values object, keyed by field id. -/
abbrev Values := List (String × Value)

/-- JS object property read (first binding wins; keys are unique in a JS
object, so this is exact). -/
def lookupValue (values : Values) (id : String) : Option Value :=
  (values.find? (fun p => p.1 == id)).map Prod.snd

/-- Property read on a row object or a condition map. -/
def assocLookup (l : List (String × String)) (k : String) : Option String :=
  (l.find? (fun p => p.1 == k)).map Prod.snd

/-- JS truthiness of a field value: `undefined` and `""` are falsy, arrays
(even empty ones) are truthy. -/
def vTruthy : Option Value → Bool
  | none => false
  | some (.str s) => !(s == "")
  | some (.rows _) => true

/-- JS truthiness of a table cell. -/
def cellTruthy : Option String → Bool
  | none => false
  | some s => !(s == "")

/-- JS `String.prototype.trim`: strip leading and trailing whitespace.
Modelled on the character list so that it evaluates by kernel reduction
(Lean core's `String.trim` is implemented by well-founded recursion on byte
positions and does not). -/
def jsTrim (s : String) : String :=
  ⟨((s.data.dropWhile Char.isWhitespace).reverse.dropWhile Char.isWhitespace).reverse⟩

/-- `!value?.trim()` on a text field: the value is absent or trims to `""`.
A row-array value at a text field throws a TypeError in the source (outside
the §3 value-shape contract) and is modelled as non-blank. -/
def textBlank : Option Value → Bool
  | none => true
  | some (.str s) => jsTrim s == ""
  | some (.rows _) => false

/-- `!cell?.trim()` on a table cell. -/
def cellBlank : Option String → Bool
  | none => true
  | some s => jsTrim s == ""

/-- `value?.length`: string length, or row count for an array value;
`none` when absent (and any comparison with `undefined` is false). -/
def jsLen : Option Value → Option Nat
  | none => none
  | some (.str s) => some s.length
  | some (.rows rs) => some rs.length

/-- `validation?.required` truthiness. -/
def reqOf (validation : Option Validation) : Bool :=
  match validation.bind Validation.required with
  | some b => b
  | none => false

/-- `field.options.includes(value)`: only a string can be a member of the
option list (an array value never is). -/
def optIncludes (options : List String) : Option Value → Bool
  | some (.str s) => options.contains s
  | _ => false

/-- `field.type === "dropdown" && field.condition`: a defined condition map
(`\x7b\x7d` included) makes a dropdown a branch point. -/
def isBranching : FormField → Bool
  | .dropdown _ _ _ _ (some _) => true
  | _ => false

/-- The early-exit scan for the first branching dropdown, returning it with
its index. -/
def findBranch : List FormField → Option (Nat × FormField)
  | [] => none
  | f :: fs =>
      if isBranching f then some (0, f)
      else (findBranch fs).map (fun p => (p.1 + 1, p.2))

/-- `possibleJumpTargets`: every truthy target id appearing in any
dropdown's condition map (across all dropdowns, in field order). -/
def possibleJumpTargets (fields : List FormField) : List String :=
  fields.flatMap (fun f =>
    match f with
    | .dropdown _ _ _ _ (some cond) => (cond.map Prod.snd).filter (fun t => !(t == ""))
    | _ => [])

/-- `field.condition[values[field.id]]` guarded by JS truthiness of the
selected value and of the looked-up target. Indexing the condition object by
a row-array value cannot hit an option key and is modelled as no target. -/
def jumpTargetOf (values : Values) : FormField → Option String
  | .dropdown id _ _ _ (some cond) =>
      match lookupValue values id with
      | some (.str s) =>
          if s == "" then none
          else
            match assocLookup cond s with
            | some t => if t == "" then none else some t
            | none => none
      | _ => none
  | _ => none

/-- The validators' preprocessing loop: the selected jump target of the
first branching dropdown (the loop breaks there whether or not a selection
was made). -/
def computeJumpTarget (fields : List FormField) (values : Values) : Option String :=
  match findBranch fields with
  | some p => jumpTargetOf values p.2
  | none => none

/-- JS `Array.findIndex`: `-1` when no element matches. -/
def jsFindIndex (p : FormField → Bool) (fields : List FormField) : Int :=
  match fields.findIdx? p with
  | some i => (i : Int)
  | none => -1

/-- `getVisibleFieldIds` (FormPreview and SavedForms, verbatim duplicates):
the ordered ids of the fields presented to the respondent. -/
def getVisibleFieldIds (fields : List FormField) (values : Values) : List String :=
  let possible := possibleJumpTargets fields
  match findBranch fields with
  | none => fields.map FormField.id
  | some (bIdx, branch) =>
      let jt := jumpTargetOf values branch
      let afterIdx : Nat :=
        match jt with
        | some t => (jsFindIndex (fun f => f.id == t) fields + 1).toNat
        | none => bIdx + 1
      (branch.id :: jt.toList) ++
        ((fields.drop afterIdx).filter
          (fun f => !((possible.contains f.id) : Bool) || jt == some f.id)).map FormField.id

/-- `jumpTargetId && field.id !== jumpTargetId && visibleIdsSet.has(jumpTargetId)`:
the jump-target override of a field's own `required` flag, shared by every
type branch of the client validator (`jt` is `some t` only for a truthy `t`). -/
def effectiveRequired (jt : Option String) (visible : List String) (fid : String)
    (r : Bool) : Bool :=
  match jt with
  | some t => if !(fid == t) && visible.contains t then false else r
  | none => r

/-- `validation?.minLength && value?.length < minLength` at field level
(`0` is a falsy minLength; a comparison against `undefined` is false),
producing the "must be at least" message. -/
def fieldMinErrors (label : String) (validation : Option Validation)
    (value : Option Value) : List String :=
  match validation.bind Validation.minLength with
  | some m =>
      if !(m == 0) && (match jsLen value with | some l => decide (l < m) | none => false)
      then [s!"{label} must be at least {m} characters."] else []
  | none => []

/-- `validation?.maxLength && value?.length > maxLength` at field level,
producing the "must be at most" message. -/
def fieldMaxErrors (label : String) (validation : Option Validation)
    (value : Option Value) : List String :=
  match validation.bind Validation.maxLength with
  | some m =>
      if !(m == 0) && (match jsLen value with | some l => decide (m < l) | none => false)
      then [s!"{label} must be at most {m} characters."] else []
  | none => []

/-- `col.validation?.minLength && cell?.length < minLength` for a table cell,
with the row-numbered client message. -/
def cellMinErrors (cl flabel : String) (n : Nat) (validation : Option Validation)
    (cell : Option String) : List String :=
  match validation.bind Validation.minLength with
  | some m =>
      if !(m == 0) && (match cell with | some s => decide (s.length < m) | none => false)
      then [s!"{cl} in {flabel} row {n} must be at least {m} characters."] else []
  | none => []

/-- `col.validation?.maxLength && cell?.length > maxLength` for a table cell,
with the row-numbered client message. -/
def cellMaxErrors (cl flabel : String) (n : Nat) (validation : Option Validation)
    (cell : Option String) : List String :=
  match validation.bind Validation.maxLength with
  | some m =>
      if !(m == 0) && (match cell with | some s => decide (m < s.length) | none => false)
      then [s!"{cl} in {flabel} row {n} must be at most {m} characters."] else []
  | none => []

/-- The five per-cell pushes of the client validator's table branch, in
source order: text required, text minLength, text maxLength, dropdown
required, option membership (the last with no column-type guard). The
required override is keyed off the table field's id `fid`, not the column. -/
def clientCellErrors (jt : Option String) (visible : List String) (fid flabel : String)
    (rowIdx : Nat) (row : List (String × String)) (col : TableColumn) : List String :=
  let colRequired := effectiveRequired jt visible fid (reqOf col.validation)
  let cell := assocLookup row col.id
  let cl := col.label
  let n := rowIdx + 1
  (if col.type == ColType.text && colRequired && cellBlank cell
    then [s!"{cl} in {flabel} row {n} is required."] else []) ++
  (if col.type == ColType.text then cellMinErrors cl flabel n col.validation cell else []) ++
  (if col.type == ColType.text then cellMaxErrors cl flabel n col.validation cell else []) ++
  (if col.type == ColType.dropdown && colRequired && !(cellTruthy cell)
    then [s!"{cl} in {flabel} row {n} is required."] else []) ++
  (match cell, col.options with
   | some s, some opts =>
       if !(s == "") && !(opts.contains s)
       then [s!"{cl} in {flabel} row {n} value is not valid."] else []
   | _, _ => [])

/-- The type-specific checks of the client validator for one field,
without the visibility guard. A table's checks run only when the value is
an array (`Array.isArray`). -/
def clientFieldChecks (jt : Option String) (visible : List String) (values : Values) :
    FormField → List String
  | .text id label validation =>
      let value := lookupValue values id
      let required := effectiveRequired jt visible id (reqOf validation)
      (if required && textBlank value then [s!"{label} is required."] else []) ++
      fieldMinErrors label validation value ++
      fieldMaxErrors label validation value
  | .dropdown id label options validation _ =>
      let value := lookupValue values id
      let required := effectiveRequired jt visible id (reqOf validation)
      (if required && !(vTruthy value) then [s!"{label} is required."] else []) ++
      (if vTruthy value && !(optIncludes options value)
        then [s!"{label} value is not valid."] else [])
  | .table id label columns _ _ =>
      match lookupValue values id with
      | some (.rows rs) =>
          rs.enum.flatMap (fun p => columns.flatMap (clientCellErrors jt visible id label p.1 p.2))
      | _ => []

/-- One iteration of the client validator's field loop:
`if (!visibleIdsSet.has(field.id)) return;` then the type checks. -/
def clientFieldErrors (jt : Option String) (visible : List String) (values : Values)
    (f : FormField) : List String :=
  if visible.contains f.id then clientFieldChecks jt visible values f else []

/-- `validateFormResponse(values, form, visibleFieldIds)` (client module,
byte-identical to the inline `validate` of FormPreview): recompute the jump
target, then accumulate each field's errors in schema order. -/
def validateFormResponse (values : Values) (form : FormSchema)
    (visibleFieldIds : List String) : List String :=
  let jt := computeJumpTarget form.fields values
  form.fields.flatMap (clientFieldErrors jt visibleFieldIds values)

/-- The three per-cell pushes of the server validator's table branch:
text required, dropdown required, option membership — no min/max length
checks and no row number in the messages. -/
def serverCellErrors (flabel : String) (row : List (String × String))
    (col : TableColumn) : List String :=
  let cell := assocLookup row col.id
  let cl := col.label
  (if col.type == ColType.text && reqOf col.validation && cellBlank cell
    then [s!"{cl} in {flabel} is required."] else []) ++
  (if col.type == ColType.dropdown && reqOf col.validation && !(cellTruthy cell)
    then [s!"{cl} in {flabel} is required."] else []) ++
  (match cell, col.options with
   | some s, some opts =>
       if !(s == "") && !(opts.contains s)
       then [s!"{cl} in {flabel} value is not valid."] else []
   | _, _ => [])

/-- One iteration of the server validator's field loop: the blank-label
check, then the type rules with no visibility filtering and no jump-target
suppression. -/
def serverFieldErrors (values : Values) : FormField → List String
  | .text id label validation =>
      let value := lookupValue values id
      (if jsTrim label == "" then [s!"Field label missing for {id}"] else []) ++
      (if reqOf validation && textBlank value then [s!"{label} is required."] else []) ++
      fieldMinErrors label validation value ++
      fieldMaxErrors label validation value
  | .dropdown id label options validation _ =>
      let value := lookupValue values id
      (if jsTrim label == "" then [s!"Field label missing for {id}"] else []) ++
      (if reqOf validation && !(vTruthy value) then [s!"{label} is required."] else []) ++
      (if vTruthy value && !(optIncludes options value)
        then [s!"{label} value is not valid."] else [])
  | .table id label columns _ _ =>
      (if jsTrim label == "" then [s!"Field label missing for {id}"] else []) ++
      (match lookupValue values id with
       | some (.rows rs) => rs.flatMap (fun row => columns.flatMap (serverCellErrors label row))
       | _ => [])

/-- Server `validateResponse(form, data)` (two byte-identical copies in the
server source). -/
def validateResponse (form : FormSchema) (data : Values) : List String :=
  form.fields.flatMap (serverFieldErrors data)

/-! ### General helper lemmas -/

/-- The field found by the branch scan is a branching dropdown. -/
lemma isBranching_of_findBranch :
    ∀ {fields : List FormField} {i : Nat} {f : FormField},
      findBranch fields = some (i, f) → isBranching f = true := by
  intro fields
  induction fields with
  | nil => intro i f h; simp [findBranch] at h
  | cons g gs ih =>
      intro i f h
      simp only [findBranch] at h
      by_cases hg : isBranching g
      · rw [if_pos hg] at h
        injection h with h'
        injection h' with hi hf
        exact hf ▸ hg
      · rw [if_neg hg] at h
        cases hgs : findBranch gs with
        | none => rw [hgs] at h; simp at h
        | some p =>
            obtain ⟨j, f'⟩ := p
            rw [hgs] at h
            simp only [Option.map_some'] at h
            injection h with h'
            injection h' with hi hf
            exact hf ▸ ih hgs

/-- With no value selected at a branching dropdown, no jump target arises. -/
lemma jumpTargetOf_eq_none_of_unset {values : Values} {f : FormField}
    (hb : isBranching f = true) (hv : lookupValue values f.id = none) :
    jumpTargetOf values f = none := by
  cases f with
  | text i l v => simp [isBranching] at hb
  | table i l c m r => simp [isBranching] at hb
  | dropdown i l o v c =>
      cases c with
      | none => simp [isBranching] at hb
      | some cond => simp [jumpTargetOf, FormField.id] at hv ⊢; simp [hv]

/-- When no field is branching, the branch scan fails. -/
lemma findBranch_eq_none_of_all {fields : List FormField}
    (h : fields.all (fun f => !(isBranching f)) = true) :
    findBranch fields = none := by
  induction fields with
  | nil => rfl
  | cons g gs ih =>
      simp only [List.all_cons, Bool.and_eq_true, Bool.not_eq_true'] at h
      simp [findBranch, h.1, ih (by simpa using h.2)]

/-- `none == some x` is false for the `Option` `BEq`. -/
lemma none_beq_some (x : String) : ((none : Option String) == some x) = false := rfl

/-- Congruence for `flatMap` under pointwise-equal functions. -/
lemma flatMap_congr {α β : Type} {l : List α} {f g : α → List β}
    (h : ∀ x ∈ l, f x = g x) : l.flatMap f = l.flatMap g := by
  simp only [List.flatMap]
  rw [List.map_congr_left h]

/-- Elements mapped to `[]` can be filtered out of a `flatMap`. -/
lemma flatMap_eq_flatMap_filter {α β : Type} {l : List α} {f : α → List β} {p : α → Bool}
    (h : ∀ x ∈ l, p x = false → f x = []) :
    l.flatMap f = (l.filter p).flatMap f := by
  induction l with
  | nil => rfl
  | cons x xs ih =>
      have ihx := ih (fun y hy => h y (List.mem_cons_of_mem x hy))
      by_cases hx : p x
      · simp [List.filter_cons, hx, ihx]
      · simp only [Bool.not_eq_true] at hx
        simp [List.filter_cons, hx, h x (List.mem_cons_self x xs) hx, ihx]

/-! ### Concrete example schemas -/

/-- `validation: \x7b required: true \x7d`. -/
def reqOnly : Option Validation := some ⟨some true, none, none⟩

/-- Scenario A/B schema of the spec: a branching dropdown whose `"Yes"`
option jumps to `Q2`, followed by two required text questions. -/
def fieldsAB : List FormField :=
  [.dropdown "D" "Branch" ["Yes", "No"] none (some [("Yes", "Q2")]),
   .text "Q1" "First question" reqOnly,
   .text "Q2" "Second question" reqOnly]

/-! ### C1 -/

/-- C1 counterexample: on the spec's own Scenario B schema (one branching
dropdown, nothing selected), `getVisibleFieldIds` returns the branch id
followed by the non-target question `Q1`, not the one-element list of the
branch id alone. -/
theorem c1_counterexample :
    (fieldsAB.filter isBranching).length = 1 ∧
    lookupValue [] "D" = none ∧
    getVisibleFieldIds fieldsAB [] = ["D", "Q1"] ∧
    getVisibleFieldIds fieldsAB [] ≠ ["D"] := by decide

/-- C1 amended: with the branching dropdown's id unset, resolve returns the
branch id followed by the ids of the subsequent fields that are not possible
jump targets, in original order (so it is `[branchId]` alone only when every
subsequent field is a possible jump target). -/
theorem c1_resolve_with_unset_branch (fields : List FormField) (values : Values)
    (bIdx : Nat) (branch : FormField)
    (_hone : (fields.filter isBranching).length = 1)
    (hb : findBranch fields = some (bIdx, branch))
    (hv : lookupValue values branch.id = none) :
    getVisibleFieldIds fields values =
      branch.id ::
        ((fields.drop (bIdx + 1)).filter
          (fun f => !((possibleJumpTargets fields).contains f.id))).map FormField.id := by
  have hjt : jumpTargetOf values branch = none :=
    jumpTargetOf_eq_none_of_unset (isBranching_of_findBranch hb) hv
  simp only [getVisibleFieldIds, hb, hjt, Option.toList]
  have hfilter :
      (fields.drop (bIdx + 1)).filter
          (fun f => !((possibleJumpTargets fields).contains f.id) ||
            ((none : Option String) == some f.id)) =
        (fields.drop (bIdx + 1)).filter
          (fun f => !((possibleJumpTargets fields).contains f.id)) :=
    List.filter_congr (fun f _ => by simp [none_beq_some])
  rw [hfilter]
  simp

/-- C1 amended-theorem witness at the Scenario B schema. -/
theorem c1_resolve_with_unset_branch_witness :
    getVisibleFieldIds fieldsAB [] =
      "D" ::
        ((fieldsAB.drop 1).filter
          (fun f => !((possibleJumpTargets fieldsAB).contains f.id))).map FormField.id :=
  c1_resolve_with_unset_branch fieldsAB [] 0
    (FormField.dropdown "D" "Branch" ["Yes", "No"] none (some [("Yes", "Q2")]))
    (by decide) (by decide) (by decide)

/-! ### C2 -/

/-- A text field followed by a dropdown whose condition map is defined but
empty (`\x7b\x7d`), as the editor produces when "Enable Condition Flow" is
checked with no jumps assigned. -/
def fieldsC2 : List FormField :=
  [.text "T1" "First" none, .dropdown "D" "Branch" ["A"] none (some [])]

/-- C2 counterexample: no dropdown carries a *non-empty* condition map, yet
`getVisibleFieldIds` does not return all ids in order — the defined-but-empty
`\x7b\x7d` condition is truthy in the source, so that dropdown becomes the
branch point and the field before it is dropped. -/
theorem c2_counterexample :
    (fieldsC2.all (fun f =>
      match f with
      | .dropdown _ _ _ _ (some c) => c.isEmpty
      | _ => true)) = true ∧
    getVisibleFieldIds fieldsC2 [] = ["D"] ∧
    getVisibleFieldIds fieldsC2 [] ≠ fieldsC2.map FormField.id := by decide

/-- C2 amended: `resolve` returns all field ids in original order exactly in
the absence of any *defined* condition map (a defined-but-empty `\x7b\x7d`
already makes its dropdown the branch point). -/
theorem c2_resolve_no_branch (fields : List FormField) (values : Values)
    (h : fields.all (fun f => !(isBranching f)) = true) :
    getVisibleFieldIds fields values = fields.map FormField.id := by
  simp [getVisibleFieldIds, findBranch_eq_none_of_all h]

/-- C2 amended-theorem witness: a schema with a condition-free dropdown. -/
theorem c2_resolve_no_branch_witness :
    getVisibleFieldIds [FormField.text "T1" "First" none,
      FormField.dropdown "D" "Branch" ["A"] none none] [] =
      ["T1", "D"] :=
  c2_resolve_no_branch _ [] (by decide)

/-! ### C7 -/

/-- Scenario D table: one dynamic-mode table, one required dropdown column
with options `["A","B"]`. -/
def formC7 : FormSchema :=
  ⟨none, "F", [.table "t" "Tbl" [⟨"c1", ColType.dropdown, "Col", some ["A", "B"], reqOnly⟩]
    TableMode.dynamic none]⟩

/-- C7: on Scenario D's input (row 0 cell empty, row 1 cell "C"), the client
validator returns exactly the 1-based-row required and invalid-value errors. -/
theorem c7_scenario_d :
    validateFormResponse [("t", Value.rows [[], [("c1", "C")]])] formC7 ["t"] =
      ["Col in Tbl row 1 is required.", "Col in Tbl row 2 value is not valid."] := by
  decide

/-! ### C8 -/

/-- A jump target placed *before* its branching dropdown: `T` at index 0,
a middle field `M`, and the branching dropdown `D` at index 2 jumping to `T`. -/
def fieldsC8 : List FormField :=
  [.text "T" "Target" none,
   .text "M" "Middle" none,
   .dropdown "D" "Branch" ["Yes"] none (some [("Yes", "T")])]

/-- C8: with the jump target's index (0) before the branch index (2), the
after-scan starts at index 1 < branchIdx + 1, so resolve re-includes the
field `M` between target and branch and lists the branch id `D` twice. -/
theorem c8_target_before_branch :
    fieldsC8.findIdx? (fun f => f.id == "T") = some 0 ∧
    (findBranch fieldsC8).map Prod.fst = some 2 ∧
    (jsFindIndex (fun f => f.id == "T") fieldsC8 + 1).toNat < 2 + 1 ∧
    getVisibleFieldIds fieldsC8 [("D", Value.str "Yes")] = ["D", "T", "M", "D"] ∧
    (getVisibleFieldIds fieldsC8 [("D", Value.str "Yes")]).count "D" = 2 ∧
    "M" ∈ getVisibleFieldIds fieldsC8 [("D", Value.str "Yes")] := by
  decide

/-! ### C9 -/

/-- A required text column, used by several table examples. -/
def reqTextCol : TableColumn := ⟨"c", ColType.text, "Col", none, reqOnly⟩

/-- A dynamic table field with a required column and a blank label. -/
def formC9 : FormSchema :=
  ⟨none, "F", [.table "t" "" [reqTextCol] TableMode.dynamic none]⟩

/-- C9 counterexample: a visible table field with a required column and an
absent value draws no cell error, but the server still emits its blank-label
error for that very field, so "validate emits no error for that field" fails
on the server side. -/
theorem c9_counterexample :
    lookupValue [] "t" = none ∧
    validateResponse formC9 [] = ["Field label missing for t"] ∧
    validateResponse formC9 [] ≠ [] := by decide

/-- C9 amended: a table field whose value is absent or a string contributes
no error on the client, and none on the server either provided its label is
not blank (a blank label still draws the server's label-missing error);
table-cell errors thus arise only from array values. -/
theorem c9_non_array_table_value (jt : Option String) (visible : List String)
    (values : Values) (id label : String) (columns : List TableColumn)
    (mode : TableMode) (rowLabels : Option (List String))
    (hval : lookupValue values id = none ∨ ∃ s, lookupValue values id = some (Value.str s)) :
    clientFieldErrors jt visible values (.table id label columns mode rowLabels) = [] ∧
    (jsTrim label ≠ "" →
      serverFieldErrors values (.table id label columns mode rowLabels) = []) := by
  constructor
  · rcases hval with h | ⟨s, h⟩ <;>
      simp [clientFieldErrors, clientFieldChecks, FormField.id, h]
  · intro hlab
    have hlab' : (jsTrim label == "") = false := beq_eq_false_iff_ne.mpr hlab
    rcases hval with h | ⟨s, h⟩ <;>
      simp [serverFieldErrors, FormField.id, h, hlab']

/-- C9 amended-theorem witness: a required-column table with no value
entered passes on both sides. -/
theorem c9_non_array_table_value_witness :
    clientFieldErrors none ["t"] [] (.table "t" "Tbl" [reqTextCol] TableMode.dynamic none) = [] ∧
    (jsTrim "Tbl" ≠ "" →
      serverFieldErrors [] (.table "t" "Tbl" [reqTextCol] TableMode.dynamic none) = []) :=
  c9_non_array_table_value none ["t"] [] "t" "Tbl" [reqTextCol] TableMode.dynamic none
    (Or.inl (by decide))

/-! ### C10 -/

/-- C10: the option-membership cell check carries no column-type guard — for
any column type, a non-empty cell outside the column's options draws the
"value is not valid." error, with the 1-based row number on the client and
without it on the server. -/
theorem c10_membership_ignores_column_type (jt : Option String) (visible : List String)
    (fid flabel : String) (rowIdx : Nat) (row : List (String × String))
    (col : TableColumn) (s : String) (opts : List String)
    (hcell : assocLookup row col.id = some s) (hs : s ≠ "")
    (hopts : col.options = some opts) (hmem : opts.contains s = false) :
    s!"{col.label} in {flabel} row {rowIdx + 1} value is not valid." ∈
      clientCellErrors jt visible fid flabel rowIdx row col ∧
    s!"{col.label} in {flabel} value is not valid." ∈ serverCellErrors flabel row col := by
  have hs' : (s == "") = false := beq_eq_false_iff_ne.mpr hs
  have hmem' : s ∉ opts := by simpa using hmem
  constructor
  · simp [clientCellErrors, hcell, hopts, hs', hmem']
  · simp [serverCellErrors, hcell, hopts, hs', hmem']

/-- C10 witness: a *text*-typed column carrying options, membership-checked
exactly like a dropdown column. -/
theorem c10_membership_ignores_column_type_witness :
    "Col in Tbl row 1 value is not valid." ∈
      clientCellErrors none ["t"] "t" "Tbl" 0 [("c", "Z")]
        ⟨"c", ColType.text, "Col", some ["A"], none⟩ ∧
    "Col in Tbl value is not valid." ∈
      serverCellErrors "Tbl" [("c", "Z")] ⟨"c", ColType.text, "Col", some ["A"], none⟩ :=
  c10_membership_ignores_column_type none ["t"] "t" "Tbl" 0 [("c", "Z")]
    ⟨"c", ColType.text, "Col", some ["A"], none⟩ "Z" ["A"]
    (by decide) (by decide) (by decide) (by decide)

/-! ### C4 -/

/-- A branching dropdown whose selected option jumps to `"X"`, an id that is
not among the visible ids, followed by a required question. -/
def fieldsC4 : List FormField :=
  [.dropdown "D" "Branch" ["Yes"] none (some [("Yes", "X")]),
   .text "T1" "Question" reqOnly]

/-- C4 counterexample: the jump target `"X"` is determined but absent from
`visibleIds`; the visible non-target field `T1` keeps its own required flag
and its "is required." error IS emitted — the override is not applied
"regardless of whether the jump target id appears in visibleIds". -/
theorem c4_counterexample :
    computeJumpTarget fieldsC4 [("D", Value.str "Yes")] = some "X" ∧
    (["D", "T1"].contains "X") = false ∧
    (["D", "T1"].contains "T1") = true ∧
    validateFormResponse [("D", Value.str "Yes")] ⟨none, "F", fieldsC4⟩ ["D", "T1"] =
      ["Question is required."] := by decide

/-- Force a validation record's `required` off, keeping the length rules. -/
def clearReq : Option Validation → Option Validation
  | some v => some { v with required := some false }
  | none => none

/-- A column with its `required` flag forced off. -/
def clearColReq (c : TableColumn) : TableColumn :=
  { c with validation := clearReq c.validation }

/-- A field with every `required` flag (its own, and its columns') forced
off; ids, labels, options and length rules unchanged. -/
def clearRequired : FormField → FormField
  | .text i l v => .text i l (clearReq v)
  | .dropdown i l o v c => .dropdown i l o (clearReq v) c
  | .table i l cols m r => .table i l (cols.map clearColReq) m r

lemma reqOf_clearReq (v : Option Validation) : reqOf (clearReq v) = false := by
  cases v <;> simp [clearReq, reqOf]

lemma clearReq_minLength (v : Option Validation) :
    (clearReq v).bind Validation.minLength = v.bind Validation.minLength := by
  cases v <;> rfl

lemma clearReq_maxLength (v : Option Validation) :
    (clearReq v).bind Validation.maxLength = v.bind Validation.maxLength := by
  cases v <;> rfl

/-- Without a jump target the override is the identity. -/
lemma effectiveRequired_none (visible : List String) (fid : String) (r : Bool) :
    effectiveRequired none visible fid r = r := rfl

/-- With the jump target absent from `visibleIds`, the override leaves the
field's own `required` untouched. -/
lemma effectiveRequired_not_visible {t : String} {visible : List String}
    (h : visible.contains t = false) (fid : String) (r : Bool) :
    effectiveRequired (some t) visible fid r = r := by
  have h' : t ∉ visible := by simpa using h
  simp [effectiveRequired, h']

/-- With the jump target visible and the field not the target, the override
forces `required` off. -/
lemma effectiveRequired_other {t fid : String} {visible : List String}
    (hne : fid ≠ t) (hvis : visible.contains t = true) (r : Bool) :
    effectiveRequired (some t) visible fid r = false := by
  have hvis' : t ∈ visible := by simpa using hvis
  simp [effectiveRequired, hvis', hne]

/-- Cell checks are insensitive to clearing the column's `required` when the
override already forces it off. -/
lemma clientCellErrors_clearColReq {t fid : String} {visible : List String}
    (hne : fid ≠ t) (hvis : visible.contains t = true) (flabel : String)
    (rowIdx : Nat) (row : List (String × String)) (col : TableColumn) :
    clientCellErrors (some t) visible fid flabel rowIdx row (clearColReq col) =
      clientCellErrors (some t) visible fid flabel rowIdx row col := by
  simp [clientCellErrors, clearColReq, effectiveRequired_other hne hvis,
    reqOf_clearReq, cellMinErrors, cellMaxErrors, clearReq_minLength, clearReq_maxLength]

/-- C4 amended: the required override fires only when the jump target id is
itself a member of `visibleIds` — (i) with the target not visible, the
validator treats every field exactly as if no jump target were set; (ii)
with it visible, a visible field other than the target is validated as if
all its `required` flags were off. -/
theorem c4_required_override_needs_visible_target :
    (∀ (t : String) (visible : List String) (values : Values) (f : FormField),
      visible.contains t = false →
      clientFieldErrors (some t) visible values f = clientFieldErrors none visible values f) ∧
    (∀ (t : String) (visible : List String) (values : Values) (f : FormField),
      visible.contains t = true → f.id ≠ t →
      clientFieldErrors (some t) visible values f =
        clientFieldErrors (some t) visible values (clearRequired f)) := by
  constructor
  · intro t visible values f h
    cases f with
    | text i l v =>
        simp [clientFieldErrors, clientFieldChecks, FormField.id,
          effectiveRequired_not_visible h, effectiveRequired_none]
    | dropdown i l o v c =>
        simp [clientFieldErrors, clientFieldChecks, FormField.id,
          effectiveRequired_not_visible h, effectiveRequired_none]
    | table i l cols m r =>
        simp only [clientFieldErrors, clientFieldChecks, FormField.id]
        cases hv : lookupValue values i with
        | none => simp
        | some val =>
            cases val with
            | str s => simp
            | rows rs =>
                have hrow :
                    (rs.enum.flatMap fun p =>
                      cols.flatMap (clientCellErrors (some t) visible i l p.1 p.2)) =
                      rs.enum.flatMap fun p =>
                        cols.flatMap (clientCellErrors none visible i l p.1 p.2) :=
                  flatMap_congr (fun p _ => flatMap_congr (fun c _ => by
                    simp [clientCellErrors, effectiveRequired_not_visible h,
                      effectiveRequired_none]))
                dsimp only
                rw [hrow]
  · intro t visible values f hvis hne
    cases f with
    | text i l v =>
        simp only [FormField.id] at hne
        simp [clientFieldErrors, clientFieldChecks, clearRequired, FormField.id,
          effectiveRequired_other hne hvis, reqOf_clearReq,
          fieldMinErrors, fieldMaxErrors, clearReq_minLength, clearReq_maxLength]
    | dropdown i l o v c =>
        simp only [FormField.id] at hne
        simp [clientFieldErrors, clientFieldChecks, clearRequired, FormField.id,
          effectiveRequired_other hne hvis, reqOf_clearReq]
    | table i l cols m r =>
        simp only [FormField.id] at hne
        simp only [clientFieldErrors, clientFieldChecks, clearRequired, FormField.id]
        cases hv : lookupValue values i with
        | none => simp
        | some val =>
            cases val with
            | str s => simp
            | rows rs =>
                simp [List.flatMap_map, clientCellErrors_clearColReq hne hvis]

/-- C4 amended-theorem witness: both halves applied at concrete inputs —
(i) target `"X"` not visible: `T1`'s required error is kept; (ii) target
`"T1"` visible: clearing `Q`'s required flags changes nothing. -/
theorem c4_required_override_needs_visible_target_witness :
    clientFieldErrors (some "X") ["D", "T1"] [] (FormField.text "T1" "Question" reqOnly) =
      clientFieldErrors none ["D", "T1"] [] (FormField.text "T1" "Question" reqOnly) ∧
    clientFieldErrors (some "T1") ["D", "T1", "Q"] [] (FormField.text "Q" "Other" reqOnly) =
      clientFieldErrors (some "T1") ["D", "T1", "Q"] []
        (clearRequired (FormField.text "Q" "Other" reqOnly)) :=
  ⟨c4_required_override_needs_visible_target.1 "X" ["D", "T1"] []
      (FormField.text "T1" "Question" reqOnly) (by decide),
   c4_required_override_needs_visible_target.2 "T1" ["D", "T1", "Q"] []
      (FormField.text "Q" "Other" reqOnly) (by decide) (by decide)⟩

/-! ### C5 -/

/-- C5: (i) a field whose id is not in `visibleIds` contributes no error,
whatever its rules and value; (ii) the validator's output is exactly the
concatenated errors of the visible fields, in schema order. -/
theorem c5_invisible_fields_contribute_nothing :
    (∀ (jt : Option String) (visible : List String) (values : Values) (f : FormField),
      visible.contains f.id = false → clientFieldErrors jt visible values f = []) ∧
    (∀ (values : Values) (form : FormSchema) (visible : List String),
      validateFormResponse values form visible =
        (form.fields.filter (fun f => visible.contains f.id)).flatMap
          (clientFieldErrors (computeJumpTarget form.fields values) visible values)) := by
  constructor
  · intro jt visible values f h
    have h' : f.id ∉ visible := by simpa using h
    simp [clientFieldErrors, h']
  · intro values form visible
    simp only [validateFormResponse]
    exact flatMap_eq_flatMap_filter (fun f _ hf => by
      have hf' : f.id ∉ visible := by simpa using hf
      simp [clientFieldErrors, hf'])

/-- C5 witness: an invisible required field contributes nothing, and the
validator on the Scenario B schema equals its visible-only restriction. -/
theorem c5_invisible_fields_contribute_nothing_witness :
    clientFieldErrors none ["a"] [] (FormField.text "b" "B" reqOnly) = [] ∧
    validateFormResponse [] ⟨none, "F", fieldsAB⟩ ["D"] =
      (fieldsAB.filter (fun f => (["D"] : List String).contains f.id)).flatMap
        (clientFieldErrors (computeJumpTarget fieldsAB []) ["D"] []) :=
  ⟨c5_invisible_fields_contribute_nothing.1 none ["a"] []
      (FormField.text "b" "B" reqOnly) (by decide),
   c5_invisible_fields_contribute_nothing.2 [] ⟨none, "F", fieldsAB⟩ ["D"]⟩

/-! ### C3 -/

/-- `some a == some b` unfolds to `a == b`. -/
lemma some_beq_some (a b : String) : ((some a : Option String) == some b) = (a == b) := rfl

/-- `findIdx?` on a cons cell, with the accumulator eliminated. -/
lemma findIdx?_cons_eq (p : FormField → Bool) (x : FormField) (xs : List FormField) :
    (x :: xs).findIdx? p = if p x then some 0 else (xs.findIdx? p).map (fun i => i + 1) := by
  simp [List.findIdx?_cons]

/-- What a successful `findIdx?` pins down: the index is in range and the
element there satisfies the predicate. -/
lemma findIdx?_spec {p : FormField → Bool} :
    ∀ {l : List FormField} {i : Nat}, l.findIdx? p = some i →
      ∃ h : i < l.length, p (l.get ⟨i, h⟩) = true := by
  intro l
  induction l with
  | nil => intro i h; simp [List.findIdx?] at h
  | cons x xs ih =>
      intro i h
      rw [findIdx?_cons_eq] at h
      by_cases hx : p x
      · rw [if_pos hx] at h
        injection h with h'
        subst h'
        exact ⟨Nat.succ_pos _, hx⟩
      · rw [if_neg hx] at h
        cases hxs : xs.findIdx? p with
        | none => rw [hxs] at h; simp at h
        | some j =>
            rw [hxs] at h
            simp only [Option.map_some'] at h
            injection h with h'
            obtain ⟨hj, hpj⟩ := ih hxs
            subst h'
            exact ⟨Nat.succ_lt_succ hj, hpj⟩

/-- Under unique field ids, every field strictly after a `findIdx?` hit for
id `t` has an id different from `t`. -/
lemma id_ne_of_mem_drop_findIdx? {fields : List FormField} {t : String} {tIdx : Nat}
    (hidx : fields.findIdx? (fun f => f.id == t) = some tIdx)
    (hnodup : (fields.map FormField.id).Nodup) :
    ∀ f ∈ fields.drop (tIdx + 1), f.id ≠ t := by
  obtain ⟨hlt, hp⟩ := findIdx?_spec hidx
  have hxid : (fields.get ⟨tIdx, hlt⟩).id = t := by simpa using hp
  have hlt' : tIdx < (fields.map FormField.id).length := by simpa using hlt
  have hdrop : (fields.map FormField.id).drop tIdx =
      (fields.get ⟨tIdx, hlt⟩).id :: (fields.map FormField.id).drop (tIdx + 1) := by
    rw [List.drop_eq_getElem_cons hlt']
    simp
  have hnd : ((fields.map FormField.id).drop tIdx).Nodup :=
    hnodup.sublist (List.drop_sublist _ _)
  rw [hdrop] at hnd
  have hnotmem := (List.nodup_cons.mp hnd).1
  intro f hf hft
  apply hnotmem
  rw [hxid, ← List.map_drop]
  exact hft ▸ List.mem_map_of_mem FormField.id hf

/-- C3: with the first branching dropdown selecting a jump to target `t`,
found at index `tIdx` after the branch, and unique field ids, resolve is the
branch id, then `t`, then every later field id not in `possibleJumpTargets`,
in original order. -/
theorem c3_resolve_with_selected_target (fields : List FormField) (values : Values)
    (bIdx tIdx : Nat) (branch : FormField) (t : String)
    (hb : findBranch fields = some (bIdx, branch))
    (ht : jumpTargetOf values branch = some t)
    (hidx : fields.findIdx? (fun f => f.id == t) = some tIdx)
    (_horder : bIdx < tIdx)
    (hnodup : (fields.map FormField.id).Nodup) :
    getVisibleFieldIds fields values =
      branch.id :: t ::
        ((fields.drop (tIdx + 1)).filter
          (fun f => !((possibleJumpTargets fields).contains f.id))).map FormField.id := by
  have hafter : ((jsFindIndex (fun f => f.id == t) fields) + 1).toNat = tIdx + 1 := by
    simp only [jsFindIndex, hidx]
    omega
  have hne := id_ne_of_mem_drop_findIdx? hidx hnodup
  have hfilter :
      (fields.drop (tIdx + 1)).filter
          (fun f => !((possibleJumpTargets fields).contains f.id) ||
            ((some t : Option String) == some f.id)) =
        (fields.drop (tIdx + 1)).filter
          (fun f => !((possibleJumpTargets fields).contains f.id)) :=
    List.filter_congr (fun f hf => by
      have hbf : (t == f.id) = false :=
        beq_eq_false_iff_ne.mpr (fun h => (hne f hf) h.symm)
      simp [some_beq_some, hbf])
  simp only [getVisibleFieldIds, hb, ht, hafter, hfilter]
  simp

/-- C3 witness: branch at index 0 jumping to `Q2` at index 2; `Q1` (a
non-target) after the target's position is kept, `Q3` likewise. -/
def fieldsC3 : List FormField :=
  [.dropdown "D" "Branch" ["Yes", "No"] none (some [("Yes", "Q2")]),
   .text "Q1" "First question" reqOnly,
   .text "Q2" "Second question" reqOnly,
   .text "Q3" "Third question" none]

/-- C3 theorem witness at a concrete schema and selection. -/
theorem c3_resolve_with_selected_target_witness :
    getVisibleFieldIds fieldsC3 [("D", Value.str "Yes")] =
      "D" :: "Q2" ::
        ((fieldsC3.drop 3).filter
          (fun f => !((possibleJumpTargets fieldsC3).contains f.id))).map FormField.id :=
  c3_resolve_with_selected_target fieldsC3 [("D", Value.str "Yes")] 0 2
    (FormField.dropdown "D" "Branch" ["Yes", "No"] none (some [("Yes", "Q2")])) "Q2"
    (by decide) (by decide) (by decide) (by decide) (by decide)

/-! ### C6 -/

/-- Whether a field is a table field. -/
def isTableField : FormField → Bool
  | .table _ _ _ _ _ => true
  | _ => false

/-- A one-column required dynamic table with a non-blank label, plus one
entered-but-empty row. -/
def formC6 : FormSchema :=
  ⟨none, "F", [.table "t" "Tbl" [reqTextCol] TableMode.dynamic none]⟩

/-- C6 counterexample: on a table field (no branching anywhere, label
non-blank, every field visible) the server and the client return different
error texts for the same violation — the client numbers the row, the server
does not. -/
theorem c6_counterexample :
    validateFormResponse [("t", Value.rows [[]])] formC6 (formC6.fields.map FormField.id) =
      ["Col in Tbl row 1 is required."] ∧
    validateResponse formC6 [("t", Value.rows [[]])] = ["Col in Tbl is required."] ∧
    validateResponse formC6 [("t", Value.rows [[]])] ≠
      validateFormResponse [("t", Value.rows [[]])] formC6 (formC6.fields.map FormField.id) := by
  decide

/-- C6 amended: for forms with no table field and non-blank labels, the
server validator coincides, for every value map, with the §4.2 client
validator applied in its degenerate form — every field id visible and no
jump-target suppression (the per-field checks run with no jump target). On
table fields the two genuinely diverge (the server omits row numbers and
cell length checks — see the counterexample). -/
theorem c6_server_refines_client_without_tables (form : FormSchema) (values : Values)
    (hlab : ∀ f ∈ form.fields, jsTrim f.label ≠ "")
    (htab : ∀ f ∈ form.fields, isTableField f = false) :
    validateResponse form values =
      form.fields.flatMap
        (clientFieldErrors none (form.fields.map FormField.id) values) := by
  simp only [validateResponse]
  refine flatMap_congr (fun f hf => ?_)
  have hvis : (form.fields.map FormField.id).contains f.id = true :=
    List.elem_iff.mpr (List.mem_map_of_mem FormField.id hf)
  cases f with
  | text i l v =>
      have hl : (jsTrim l == "") = false :=
        beq_eq_false_iff_ne.mpr (by simpa [FormField.label] using hlab _ hf)
      have hvis3 : ∃ a ∈ form.fields, FormField.id a = FormField.id (FormField.text i l v) :=
        ⟨_, hf, rfl⟩
      simp [serverFieldErrors, clientFieldErrors, clientFieldChecks,
        hvis3, hl, effectiveRequired_none]
  | dropdown i l o v c =>
      have hl : (jsTrim l == "") = false :=
        beq_eq_false_iff_ne.mpr (by simpa [FormField.label] using hlab _ hf)
      have hvis3 : ∃ a ∈ form.fields,
          FormField.id a = FormField.id (FormField.dropdown i l o v c) := ⟨_, hf, rfl⟩
      simp [serverFieldErrors, clientFieldErrors, clientFieldChecks,
        hvis3, hl, effectiveRequired_none]
  | table i l cols m r =>
      have := htab _ hf
      simp [isTableField] at this

/-- C6 amended-theorem witness: the Scenario A/B schema with the branching
dropdown selected — even with a jump target arising, the server agrees with
the suppression-free all-visible client application. -/
theorem c6_server_refines_client_without_tables_witness :
    validateResponse ⟨none, "F", fieldsAB⟩ [("D", Value.str "Yes")] =
      fieldsAB.flatMap
        (clientFieldErrors none (fieldsAB.map FormField.id) [("D", Value.str "Yes")]) :=
  c6_server_refines_client_without_tables ⟨none, "F", fieldsAB⟩ [("D", Value.str "Yes")]
    (by decide) (by decide)

end FormBuilder
